import Mathlib

/-!
Verification of the kernel communication core (`src/Kernels/common.c`).

The C functions are shallowly embedded as Lean functions:

* `MessageBuffer` is modelled as a function `Nat → Nat` holding byte values;
  writes of byte-typed values take `% 256` exactly where the C code performs a
  conversion to `unsigned char`.
* The DLC (line controller) is modelled by an oracle `dev : Nat → Nat` giving
  the value returned by the k-th read of a DLC register (status or receive
  FIFO, in program order).  Writes to DLC registers are collected in traces.
* Loops are embedded with their exact iteration bounds from the source
  (30000 poll iterations in `ReadMessage`, 250-iteration back-off loops in
  `WriteMessage`, 1024-byte fill in `ClearMessageBuffer`).
* C `int` arithmetic that can go negative (`length - 1` in `WriteMessage`)
  is modelled in `Int` where the sign matters (source-index reads).
-/

/-- Capacity of the staging buffer, `#define MessageBufferSize 1024`. -/
def MessageBufferSize : Nat := 1024

/-! ### ClearMessageBuffer -/

/-- One event of the `ClearMessageBuffer` loop body: a store of 0 into the
buffer, or a call to `ScratchWatchdog`.  The loop body in the source is just
`MessageBuffer[index] = 0;`, so the trace built below contains only stores. -/
inductive ClearEvent where
  | store (index : Nat)
  | scratch
deriving DecidableEq, BEq

/-- The loop of `ClearMessageBuffer`: indices `0 .. n-1` are zeroed in
increasing order (index `n-1` last).  Returns the updated buffer together
with the trace of loop-body events. -/
def clearLoop : Nat → (Nat → Nat) → ((Nat → Nat) × List ClearEvent)
  | 0, buf => (buf, [])
  | n + 1, buf =>
    let prev := clearLoop n buf
    (Function.update prev.1 n 0, prev.2 ++ [ClearEvent.store n])

/-- `ClearMessageBuffer`: zero-fills all `MessageBufferSize` bytes. -/
def clearMessageBuffer (buf : Nat → Nat) : ((Nat → Nat) × List ClearEvent) :=
  clearLoop MessageBufferSize buf

/-! ### CopyToMessageBuffer -/

/-- The loop of `CopyToMessageBuffer`, `for (index = length-1; index >= 0; index--)`:
`copyDown s offset n M` performs the writes
`M[index + offset] := M[s + index]` for `index = n-1, n-2, …, 0`, highest
index first, over a single flat memory `M` (the staging buffer starts at
address 0; a source range starting at address `s` may alias it). -/
def copyDown (s offset : Nat) : Nat → (Nat → Nat) → (Nat → Nat)
  | 0, M => M
  | n + 1, M => copyDown s offset n (Function.update M (n + offset) (M (s + n)))

/-- `CopyToMessageBuffer(start, length, offset)` over flat memory `M` with the
source range starting at address `s` (the staging buffer itself starts at
address 0, so `s = 0` is the in-buffer overlapping move). -/
def copyToMessageBuffer (M : Nat → Nat) (s length offset : Nat) : Nat → Nat :=
  copyDown s offset length M

/-! ### Checksums -/

/-- `AddReadPayloadChecksum(start, length)`: `unsigned short checksum` summed
over `unsigned char value = start[index]`.  The `% 256` is the C conversion
of the `char` source byte to `unsigned char`; the `% 65536` is the wrap of
the 16-bit accumulator. -/
def addReadPayloadChecksum (bytes : List Nat) : Nat :=
  bytes.foldl (fun checksum b => (checksum + b % 256) % 65536) 0

/-- `StartChecksum()`: 16-bit sum of `MessageBuffer[4] .. MessageBuffer[9]`.
The `% 256` records that the buffer cells hold `unsigned char` values. -/
def startChecksum (buf : Nat → Nat) : Nat :=
  (List.range' 4 6).foldl (fun checksum i => (checksum + buf i % 256) % 65536) 0

/-! ### WriteMessage -/

/-- The two DLC registers written by `WriteMessage`. -/
inductive Port where
  | command
  | fifo
deriving DecidableEq, BEq

/-- The transmit-fullness back-off in `WriteMessage`:
`while ((status == 0x02 || status == 0x03) && loopCount < 250)`.
`n` is the remaining budget, `status` the last status read (`dev k` was the
next unread oracle position).  Returns the next oracle position and whether
the loop exited with the budget exhausted while the buffer was still
(almost) full — the stall condition. -/
def wmBackoffAux (dev : Nat → Nat) : Nat → Nat → Nat → (Nat × Bool)
  | 0, k, status => (k, status == 2 || status == 3)
  | n + 1, k, status =>
    if status = 2 ∨ status = 3 then
      wmBackoffAux dev n (k + 1) (dev k &&& 3)
    else
      (k, false)

/-- The per-byte back-off: first status read `status = *DLC_Status & 0x03`,
then the bounded loop with budget 250. -/
def wmBackoff (dev : Nat → Nat) (k : Nat) : (Nat × Bool) :=
  wmBackoffAux dev 250 (k + 1) (dev k &&& 3)

/-- The end-of-frame flush wait: `while (status != 0 && loopCount < 250)`. -/
def wmDrainAux (dev : Nat → Nat) : Nat → Nat → Nat → Nat
  | 0, k, _ => k
  | n + 1, k, status =>
    if status ≠ 0 then wmDrainAux dev n (k + 1) (dev k &&& 3) else k

/-- The flush wait including its initial status read. -/
def wmDrain (dev : Nat → Nat) (k : Nat) : Nat :=
  wmDrainAux dev 250 (k + 1) (dev k &&& 3)

/-- Result of the per-byte send loop of `WriteMessage`. -/
structure WMLoopOut where
  writes : List (Port × Nat)
  reads : List Int
  k : Nat
  stalls : Nat

/-- The send loop `for (index = 0; index < lastIndex; index++)`:
`n` bytes remain, `i` is the current index, `k` the next oracle position.
Each iteration writes `start[index]` to the transmit FIFO and then runs the
bounded back-off.  `stalls` counts iterations whose back-off budget was
exhausted with the controller still full (the code ignores this). -/
def wmSendLoop (src : Int → Nat) (dev : Nat → Nat) : Nat → Nat → Nat → WMLoopOut
  | 0, _, k => ⟨[], [], k, 0⟩
  | n + 1, i, k =>
    let bk := wmBackoff dev k
    let rest := wmSendLoop src dev n (i + 1) bk.1
    ⟨(Port.fifo, src (i : Int)) :: rest.writes,
     (i : Int) :: rest.reads,
     rest.k,
     (if bk.2 then 1 else 0) + rest.stalls⟩

/-- Result of `WriteMessage`: the DLC register writes in order, the source
indices read (as integers, since `start[length - 1]` is read at `-1` when
`length = 0`), the stall count, the number of status reads consumed, the
final staging buffer, and whether `ClearMessageBuffer` ran. -/
structure WMResult where
  writes : List (Port × Nat)
  reads : List Int
  stalls : Nat
  statusReadCount : Nat
  buf : Nat → Nat
  cleared : Bool

/-- `WriteMessage(start, length, segment)` with `segment` as the C bit-flag
value (`Start = 1`, `End = 4`, `Complete = 5`).
`lastIndex = (segment & End) ? length - 1 : length` (the C `int` value `-1`
at `length = 0` makes the loop run zero times, matching `Nat` truncation);
if `segment & End`, the end path sends command `0x0C`, `start[length - 1]`,
command `0x03` and the `0x00` checksum placeholder, waits for the flush and
clears the staging buffer. -/
def writeMessage (src : Int → Nat) (length seg : Nat) (dev : Nat → Nat)
    (buf : Nat → Nat) : WMResult :=
  let startW : List (Port × Nat) :=
    if seg &&& 1 ≠ 0 then [(Port.command, 0x14)] else []
  let lastIndex : Nat := if seg &&& 4 ≠ 0 then length - 1 else length
  let body := wmSendLoop src dev lastIndex 0 0
  if seg &&& 4 ≠ 0 then
    ⟨startW ++ body.writes ++
       [(Port.command, 0x0C), (Port.fifo, src ((length : Int) - 1)),
        (Port.command, 0x03), (Port.fifo, 0)],
     body.reads ++ [(length : Int) - 1],
     body.stalls,
     wmDrain dev body.k,
     (clearMessageBuffer buf).1,
     true⟩
  else
    ⟨startW ++ body.writes, body.reads, body.stalls, body.k, buf, false⟩

/-! ### ReadMessage -/

/-- Result of `ReadMessage`: `readState` is the value stored through the
out-parameter (1 = success, 2 = suppressed, 0x0B = overflow, 0x0A = timeout,
0xEE = debug length cap), `ret` is the returned length, `buf` the staging
buffer, `len` the internal `length` variable at return, `appended` the data
bytes appended to the buffer in order, and `drained` the number of receive
FIFO reads performed by the overflow drain loop. -/
structure RMResult where
  readState : Nat
  ret : Nat
  buf : Nat → Nat
  len : Nat
  appended : List Nat
  drained : Nat

/-- The overflow drain loop `while (*DLC_Status & 0xE0 == 0x60)`.
C precedence makes the condition `*DLC_Status & (0xE0 == 0x60)`, embedded
here literally; each passing check reads one byte from the receive FIFO.
Returns the next oracle position and the number of bytes drained. -/
def rmDrain (dev : Nat → Nat) : Nat → Nat → (Nat × Nat)
  | 0, k => (k, 0)
  | fuel + 1, k =>
    if dev k &&& (if (0xE0 : Nat) = 0x60 then 1 else 0) ≠ 0 then
      let rest := rmDrain dev fuel (k + 2)
      (rest.1, rest.2 + 1)
    else
      (k + 1, 0)

/-- One iteration of the `ReadMessage` polling loop either continues with an
updated state or returns a final result. -/
inductive RMStep where
  | cont (k len : Nat) (buf : Nat → Nat) (app : List Nat)
  | done (r : RMResult)

/-- One iteration of the `ReadMessage` loop body: the artificial 25-byte
debug cap, then `status = (*DLC_Status & 0xE0) >> 5` and the switch.
Data statuses (1, 2, 4) append `*DLC_Receive_FIFO` (converted to
`unsigned char`, hence `% 256`) at `MessageBuffer[length]`; completion
statuses (5, 6, 7) read the completion code, continue when `length == 0`,
and otherwise return state 2 / length 0 when `(code & 0x30) == 0x30` and
state 1 / `length` otherwise; status 3 runs the drain loop and returns
state 0x0B / length 0. -/
def rmStep (dev : Nat → Nat) (k len : Nat) (buf : Nat → Nat) (app : List Nat) :
    RMStep :=
  if len = 25 then .done ⟨0xEE, len, buf, len, app, 0⟩
  else if (dev k &&& 0xE0) >>> 5 = 0 then .cont (k + 1) len buf app
  else if (dev k &&& 0xE0) >>> 5 = 1 ∨ (dev k &&& 0xE0) >>> 5 = 2
      ∨ (dev k &&& 0xE0) >>> 5 = 4 then
    .cont (k + 2) (len + 1) (Function.update buf len (dev (k + 1) % 256))
      (app ++ [dev (k + 1) % 256])
  else if (dev k &&& 0xE0) >>> 5 = 5 ∨ (dev k &&& 0xE0) >>> 5 = 6
      ∨ (dev k &&& 0xE0) >>> 5 = 7 then
    if len = 0 then .cont (k + 2) len buf app
    else if dev (k + 1) &&& 0x30 = 0x30 then .done ⟨2, 0, buf, len, app, 0⟩
    else .done ⟨1, len, buf, len, app, 0⟩
  else if (dev k &&& 0xE0) >>> 5 = 3 then
    .done ⟨0x0B, 0, buf, len, app, (rmDrain dev 30000 (k + 1)).2⟩
  else .cont (k + 1) len buf app

/-- The bounded polling loop of `ReadMessage`; exhausting the budget returns
state 0x0A with the accumulated length. -/
def rmLoop (dev : Nat → Nat) : Nat → Nat → Nat → (Nat → Nat) → List Nat →
    RMResult
  | 0, _, len, buf, app => ⟨0x0A, len, buf, len, app, 0⟩
  | fuel + 1, k, len, buf, app =>
    match rmStep dev k len buf app with
    | .cont k2 len2 buf2 app2 => rmLoop dev fuel k2 len2 buf2 app2
    | .done r => r

/-- `ReadMessage`: the polling loop with its 30000-iteration budget, starting
with `length = 0` on the current staging buffer. -/
def readMessage (dev : Nat → Nat) (buf : Nat → Nat) : RMResult :=
  rmLoop dev (30 * 1000) 0 0 buf []

/-! ### SendToolPresent -/

/-- The local array initializer of `SendToolPresent`:
`char toolPresent[] = { 0x8C, 0xFE, 0xF0, 0x3F, 0x00, 0x00, 0x00 };`
(7 initializers, so the array has 7 elements). -/
def toolPresentInit : List Nat := [0x8C, 0xFE, 0xF0, 0x3F, 0x00, 0x00, 0x00]

/-- The indices of `toolPresent` assigned by `SendToolPresent` before
sending (`toolPresent[4] = b1; … toolPresent[7] = b4;`). -/
def sendToolPresentWriteIndices : List Nat := [4, 5, 6, 7]

/-- The length passed by `SendToolPresent` to `WriteMessage`. -/
def sendToolPresentLength : Nat := 8

/-! ### Concrete inputs used by witnesses and counterexamples -/

/-- A concrete flat memory for the copy witness. -/
def exMem : Nat → Nat := fun a => (a + 3) % 256

/-- A concrete source range for `WriteMessage` runs. -/
def exSrc : Int → Nat := fun i => (i + 2).toNat % 256

/-- A concrete staging buffer. -/
def exBuf0 : Nat → Nat := fun _ => 0xCC

/-- A status oracle whose transmit-fullness field always reads ready. -/
def devReady : Nat → Nat := fun _ => 0

/-- A status oracle whose transmit-fullness field always reads full. -/
def devFull : Nat → Nat := fun _ => 3

/-- A receive oracle: one data byte (status 0x20, byte 0xAB), then silence
until the poll budget runs out. -/
def devOneByteThenSilence : Nat → Nat :=
  fun k => if k = 0 then 0x20 else if k = 1 then 0xAB else 0

/-- A receive oracle for the overflow path: the first status read reports
receive-status 3 (byte 0x60) and the status remains 0x60 at the drain
loop's check. -/
def devOverflowRun : Nat → Nat :=
  fun k => if k = 0 then 0x60 else if k = 1 then 0x60 else 0

/-- A receive oracle delivering a bare completion code: status 7
(byte 0xE0), then completion code 0x30. -/
def devBareCompletion : Nat → Nat :=
  fun k => if k = 0 then 0xE0 else if k = 1 then 0x30 else 0

/-! ### Helper lemmas: staging-buffer fill -/

lemma clearLoop_fst (n : Nat) (buf : Nat → Nat) :
    ∀ i, i < n → (clearLoop n buf).1 i = 0 := by
  induction n with
  | zero => intro i hi; omega
  | succ n ih =>
    intro i hi
    show Function.update (clearLoop n buf).1 n 0 i = 0
    by_cases h : i = n
    · subst h; exact Function.update_same i 0 _
    · rw [Function.update_noteq h 0 _]
      exact ih i (by omega)

lemma clearLoop_snd (n : Nat) (buf : Nat → Nat) :
    (clearLoop n buf).2 = (List.range n).map ClearEvent.store := by
  induction n with
  | zero => rfl
  | succ n ih =>
    show (clearLoop n buf).2 ++ [ClearEvent.store n]
        = (List.range (n + 1)).map ClearEvent.store
    rw [ih, List.range_succ, List.map_append]
    rfl

/-! ### Helper lemmas: backward copy -/

lemma copyDown_untouched (s offset : Nat) :
    ∀ (n : Nat) (M : Nat → Nat) (a : Nat), (∀ j, j < n → a ≠ j + offset) →
      copyDown s offset n M a = M a := by
  intro n
  induction n with
  | zero => intro M a _; rfl
  | succ n ih =>
    intro M a h
    show copyDown s offset n (Function.update M (n + offset) (M (s + n))) a = M a
    rw [ih _ a (fun j hj => h j (by omega))]
    exact Function.update_noteq (h n (by omega)) _ M

lemma copyDown_copies (s offset : Nat) :
    ∀ (L : Nat) (M : Nat → Nat), (s ≤ offset ∨ offset + L ≤ s) →
      ∀ i, i < L → copyDown s offset L M (offset + i) = M (s + i) := by
  intro L
  induction L with
  | zero => intro M _ i hi; omega
  | succ n ih =>
    intro M hsep i hi
    show copyDown s offset n (Function.update M (n + offset) (M (s + n)))
        (offset + i) = M (s + i)
    by_cases hin : i = n
    · rw [copyDown_untouched s offset n _ _ (fun j hj => by omega), hin,
        show offset + n = n + offset from Nat.add_comm _ _]
      exact Function.update_same _ _ _
    · rw [ih _ (by omega) i (by omega)]
      exact Function.update_noteq (by omega) _ M

/-! ### Helper lemmas: checksum folds -/

lemma checksumFold (l : List Nat) :
    ∀ a, a < 65536 →
      l.foldl (fun checksum b => (checksum + b % 256) % 65536) a
        = (a + (l.map (fun b => b % 256)).sum) % 65536 := by
  induction l with
  | nil => intro a ha; simp [Nat.mod_eq_of_lt ha]
  | cons b l ih =>
    intro a ha
    simp only [List.foldl_cons, List.map_cons, List.sum_cons]
    rw [ih _ (Nat.mod_lt _ (by omega))]
    omega

/-! ### Claims about the staging buffer and checksum engine -/

/-- Claim C1: for every source byte range (base `s`, length `L`) and every
destination offset `O` that is not a backward in-buffer overlap — in
particular for overlapping forward moves inside the staging buffer
(`s = 0`, `0 < O < L`) — `CopyToMessageBuffer` leaves
`MessageBuffer[O .. O+L-1]` equal to the original contents of the source
range, because it copies from the highest index to the lowest. -/
theorem copyToMessageBuffer_correct (M : Nat → Nat) (s L O : Nat)
    (hsep : s ≤ O ∨ O + L ≤ s) :
    ∀ i, i < L → copyToMessageBuffer M s L O (O + i) = M (s + i) :=
  fun i hi => copyDown_copies s O L M hsep i hi

/-- Witness for C1: the overlapping forward move `s = 0`, `L = 3`, `O = 2`
on a concrete memory reproduces the source byte at index 1 at `O + 1`. -/
theorem copyToMessageBuffer_correct_witness :
    copyToMessageBuffer exMem 0 3 2 3 = exMem 1 :=
  copyToMessageBuffer_correct exMem 0 3 2 (Or.inl (by omega)) 1 (by omega)

/-- Claim C9: `AddReadPayloadChecksum` is the 16-bit wrapping sum of the
bytes of the range (0 on the empty range, 0x01FE on `[0xFF, 0xFF]`), and
`StartChecksum` is the same wrapping 16-bit sum over staging-buffer bytes
4 through 9. -/
theorem checksum_wrapping :
    (∀ bytes : List Nat,
        addReadPayloadChecksum bytes
          = (bytes.map (fun b => b % 256)).sum % 65536)
    ∧ addReadPayloadChecksum [] = 0
    ∧ addReadPayloadChecksum [0xFF, 0xFF] = 0x1FE
    ∧ ∀ buf : Nat → Nat,
        startChecksum buf
          = (buf 4 % 256 + buf 5 % 256 + buf 6 % 256 + buf 7 % 256
              + buf 8 % 256 + buf 9 % 256) % 65536 := by
  refine ⟨fun bytes => ?_, rfl, rfl, fun buf => ?_⟩
  · have h := checksumFold bytes 0 (by omega)
    rw [Nat.zero_add] at h
    exact h
  · show (List.range' 4 6).foldl
        (fun checksum i => (checksum + buf i % 256) % 65536) 0 = _
    have h : (List.range' 4 6) = [4, 5, 6, 7, 8, 9] := rfl
    rw [h]
    simp only [List.foldl_cons, List.foldl_nil]
    omega

/-! ### Claims about ClearMessageBuffer -/

lemma storeTrace_no_scratch (n : Nat) :
    ((List.range n).map ClearEvent.store).countP
      (fun e => decide (e = ClearEvent.scratch)) = 0 := by
  rw [List.countP_eq_zero]
  intro e he
  rcases List.mem_map.1 he with ⟨i, _, hi⟩
  subst hi
  simp

/-- Counterexample to C6 as stated: on a concrete buffer the 1024-store fill
of `ClearMessageBuffer` performs zero watchdog services (its loop-body
trace counts no `scratch` event), while the claim requires one at least
every ~100 bytes. -/
theorem clearMessageBuffer_watchdog_counterexample :
    (clearMessageBuffer exBuf0).2.countP
        (fun e => decide (e = ClearEvent.scratch)) = 0
    ∧ (clearMessageBuffer exBuf0).2.length = 1024 := by
  constructor
  · show (clearLoop MessageBufferSize exBuf0).2.countP _ = 0
    rw [clearLoop_snd]
    exact storeTrace_no_scratch MessageBufferSize
  · show (clearLoop MessageBufferSize exBuf0).2.length = 1024
    rw [clearLoop_snd]
    simp [MessageBufferSize]

/-- Claim C6, amended: `ClearMessageBuffer` zero-fills all 1024 bytes of the
staging buffer, but it services the watchdog zero times during the fill
(the loop body contains no `ScratchWatchdog` call). -/
theorem clearMessageBuffer_fill_no_watchdog (buf : Nat → Nat) :
    (∀ i, i < 1024 → (clearMessageBuffer buf).1 i = 0)
    ∧ (clearMessageBuffer buf).2.countP
        (fun e => decide (e = ClearEvent.scratch)) = 0 := by
  constructor
  · intro i hi
    exact clearLoop_fst MessageBufferSize buf i hi
  · show (clearLoop MessageBufferSize buf).2.countP _ = 0
    rw [clearLoop_snd]
    exact storeTrace_no_scratch MessageBufferSize

/-- Witness for the amended C6 at a concrete buffer and index. -/
theorem clearMessageBuffer_fill_no_watchdog_witness :
    (clearMessageBuffer exMem).1 0 = 0
    ∧ (clearMessageBuffer exMem).2.countP
        (fun e => decide (e = ClearEvent.scratch)) = 0 :=
  ⟨(clearMessageBuffer_fill_no_watchdog exMem).1 0 (by omega),
   (clearMessageBuffer_fill_no_watchdog exMem).2⟩

/-! ### Claim about SendToolPresent -/

/-- Claim C4 (code bug): the local frame array of `SendToolPresent` has only
7 elements, yet the function writes index 7 and passes length 8 to
`WriteMessage`, so for every choice of the caller-supplied bytes the access
`toolPresent[7]` is out of bounds — the claimed in-bounds 8-byte frame is
impossible with this initializer. -/
theorem sendToolPresent_out_of_bounds :
    toolPresentInit.length = 7
    ∧ 7 ∈ sendToolPresentWriteIndices
    ∧ toolPresentInit.length < sendToolPresentLength
    ∧ sendToolPresentLength = 8 := by
  refine ⟨rfl, by decide, by decide, rfl⟩

/-! ### Helper lemmas: the Transmit Engine -/

lemma wmSendLoop_writes (src : Int → Nat) (dev : Nat → Nat) :
    ∀ n i k, (wmSendLoop src dev n i k).writes
      = (List.range' i n).map (fun (j : Nat) => (Port.fifo, src (j : Int))) := by
  intro n
  induction n with
  | zero => intro i k; rfl
  | succ n ih =>
    intro i k
    show (Port.fifo, src (i : Int))
        :: (wmSendLoop src dev n (i + 1) (wmBackoff dev k).1).writes
      = ((i :: List.range' (i + 1) n).map fun (j : Nat) => (Port.fifo, src (j : Int)))
    rw [ih]
    rfl

lemma wmSendLoop_reads (src : Int → Nat) (dev : Nat → Nat) :
    ∀ n i k, (wmSendLoop src dev n i k).reads
      = (List.range' i n).map (fun (j : Nat) => (j : Int)) := by
  intro n
  induction n with
  | zero => intro i k; rfl
  | succ n ih =>
    intro i k
    show (i : Int)
        :: (wmSendLoop src dev n (i + 1) (wmBackoff dev k).1).reads
      = ((i :: List.range' (i + 1) n).map (fun (j : Nat) => (j : Int)))
    rw [ih]
    rfl

lemma writeMessage_writes_eq (src : Int → Nat) (length seg : Nat)
    (dev : Nat → Nat) (buf : Nat → Nat) :
    (writeMessage src length seg dev buf).writes
      = (if seg &&& 1 ≠ 0 then [(Port.command, 0x14)] else [])
        ++ (List.range' 0 (if seg &&& 4 ≠ 0 then length - 1 else length)).map
            (fun (j : Nat) => (Port.fifo, src (j : Int)))
        ++ (if seg &&& 4 ≠ 0 then
              [(Port.command, 0x0C), (Port.fifo, src ((length : Int) - 1)),
               (Port.command, 0x03), (Port.fifo, 0)]
            else []) := by
  by_cases h4 : seg &&& 4 ≠ 0 <;>
    simp [writeMessage, h4, wmSendLoop_writes]

lemma writeMessage_reads_eq (src : Int → Nat) (length seg : Nat)
    (dev : Nat → Nat) (buf : Nat → Nat) :
    (writeMessage src length seg dev buf).reads
      = (List.range' 0 (if seg &&& 4 ≠ 0 then length - 1 else length)).map
          (fun (j : Nat) => (j : Int))
        ++ (if seg &&& 4 ≠ 0 then [(length : Int) - 1] else []) := by
  by_cases h4 : seg &&& 4 ≠ 0 <;>
    simp [writeMessage, h4, wmSendLoop_reads]

lemma writeMessage_cleared_eq (src : Int → Nat) (length seg : Nat)
    (dev : Nat → Nat) (buf : Nat → Nat) :
    (writeMessage src length seg dev buf).cleared
      = decide (seg &&& 4 ≠ 0) := by
  by_cases h4 : seg &&& 4 ≠ 0 <;> simp [writeMessage, h4]

lemma writeMessage_buf_eq (src : Int → Nat) (length seg : Nat)
    (dev : Nat → Nat) (buf : Nat → Nat) :
    (writeMessage src length seg dev buf).buf
      = if seg &&& 4 ≠ 0 then (clearMessageBuffer buf).1 else buf := by
  by_cases h4 : seg &&& 4 ≠ 0 <;> simp [writeMessage, h4]

lemma writeMessage_stalls_eq (src : Int → Nat) (length seg : Nat)
    (dev : Nat → Nat) (buf : Nat → Nat) :
    (writeMessage src length seg dev buf).stalls
      = (wmSendLoop src dev (if seg &&& 4 ≠ 0 then length - 1 else length)
          0 0).stalls := by
  by_cases h4 : seg &&& 4 ≠ 0 <;> simp [writeMessage, h4]

lemma wmBackoffAux_succ (dev : Nat → Nat) (n k status : Nat) :
    wmBackoffAux dev (n + 1) k status
      = if status = 2 ∨ status = 3 then
          wmBackoffAux dev n (k + 1) (dev k &&& 3)
        else (k, false) := rfl

lemma wmBackoff_not_full (dev : Nat → Nat) (k : Nat)
    (h : ¬(dev k &&& 3 = 2 ∨ dev k &&& 3 = 3)) :
    wmBackoff dev k = (k + 1, false) := by
  show wmBackoffAux dev (249 + 1) (k + 1) (dev k &&& 3) = (k + 1, false)
  rw [wmBackoffAux_succ, if_neg h]

lemma wmBackoffAux_full_run (n : Nat) :
    ∀ k, wmBackoffAux devFull n k 3 = (k + n, true) := by
  induction n with
  | zero => intro k; rfl
  | succ n ih =>
    intro k
    show wmBackoffAux devFull n (k + 1) (devFull k &&& 3) = (k + (n + 1), true)
    have h3 : devFull k &&& 3 = 3 := by
      show (3 : Nat) &&& 3 = 3
      decide
    rw [h3, ih (k + 1), show k + 1 + n = k + (n + 1) from by omega]

lemma wmBackoff_full_run (k : Nat) : wmBackoff devFull k = (k + 251, true) := by
  show wmBackoffAux devFull 250 (k + 1) (devFull k &&& 3) = (k + 251, true)
  have h3 : devFull k &&& 3 = 3 := by
    show (3 : Nat) &&& 3 = 3
    decide
  rw [h3, wmBackoffAux_full_run 250 (k + 1),
    show k + 1 + 250 = k + 251 from by omega]

lemma wmSendLoop_stalls_ready (src : Int → Nat) :
    ∀ n i k, (wmSendLoop src devReady n i k).stalls = 0 := by
  intro n
  induction n with
  | zero => intro i k; rfl
  | succ n ih =>
    intro i k
    show (if (wmBackoff devReady k).2 then 1 else 0)
        + (wmSendLoop src devReady n (i + 1) (wmBackoff devReady k).1).stalls
      = 0
    rw [wmBackoff_not_full devReady k (by
      show ¬((0 : Nat) &&& 3 = 2 ∨ (0 : Nat) &&& 3 = 3)
      decide)]
    simp [ih]

lemma wmSendLoop_stalls_full (src : Int → Nat) :
    ∀ n i k, (wmSendLoop src devFull n i k).stalls = n := by
  intro n
  induction n with
  | zero => intro i k; rfl
  | succ n ih =>
    intro i k
    show (if (wmBackoff devFull k).2 then 1 else 0)
        + (wmSendLoop src devFull n (i + 1) (wmBackoff devFull k).1).stalls
      = n + 1
    rw [wmBackoff_full_run k]
    simp [ih]
    omega

/-! ### Claims about WriteMessage -/

/-- Claim C5, amended: exhausting the per-byte transmit-fullness back-off
budget is silently ignored.  `WriteMessage` simply proceeds with the next
byte: every caller-visible output — the register writes, the source reads,
whether the buffer was cleared, and the final buffer contents — is
identical for any two status oracles, including one that stalls the full
250-iteration budget on every byte and one that never stalls.  No stall
indication reaches the caller. -/
theorem writeMessage_stall_silent (src : Int → Nat) (length seg : Nat)
    (dev dev2 : Nat → Nat) (buf : Nat → Nat) :
    (writeMessage src length seg dev buf).writes
      = (writeMessage src length seg dev2 buf).writes
    ∧ (writeMessage src length seg dev buf).reads
      = (writeMessage src length seg dev2 buf).reads
    ∧ (writeMessage src length seg dev buf).cleared
      = (writeMessage src length seg dev2 buf).cleared
    ∧ ∀ a, (writeMessage src length seg dev buf).buf a
        = (writeMessage src length seg dev2 buf).buf a := by
  refine ⟨?_, ?_, ?_, fun a => ?_⟩
  · rw [writeMessage_writes_eq, writeMessage_writes_eq]
  · rw [writeMessage_reads_eq, writeMessage_reads_eq]
  · rw [writeMessage_cleared_eq, writeMessage_cleared_eq]
  · rw [writeMessage_buf_eq, writeMessage_buf_eq]

/-- Counterexample to C5 as stated: a concrete 3-byte `Complete` send whose
status oracle reports the transmit buffer full forever exhausts the back-off
budget on both data bytes (`stalls = 2`), yet every caller-visible output
equals that of the run whose oracle never stalls (`stalls = 0`) — the stall
is not observable or reportable to the caller. -/
theorem writeMessage_stall_counterexample :
    (writeMessage exSrc 3 5 devReady exBuf0).writes
      = (writeMessage exSrc 3 5 devFull exBuf0).writes
    ∧ (writeMessage exSrc 3 5 devReady exBuf0).reads
      = (writeMessage exSrc 3 5 devFull exBuf0).reads
    ∧ (writeMessage exSrc 3 5 devReady exBuf0).cleared
      = (writeMessage exSrc 3 5 devFull exBuf0).cleared
    ∧ (writeMessage exSrc 3 5 devReady exBuf0).stalls = 0
    ∧ (writeMessage exSrc 3 5 devFull exBuf0).stalls = 2 := by
  refine ⟨?_, ?_, ?_, ?_, ?_⟩
  · rw [writeMessage_writes_eq, writeMessage_writes_eq]
  · rw [writeMessage_reads_eq, writeMessage_reads_eq]
  · rw [writeMessage_cleared_eq, writeMessage_cleared_eq]
  · rw [writeMessage_stalls_eq, if_pos (show (5 : Nat) &&& 4 ≠ 0 by decide)]
    exact wmSendLoop_stalls_ready exSrc (3 - 1) 0 0
  · rw [writeMessage_stalls_eq, if_pos (show (5 : Nat) &&& 4 ≠ 0 by decide)]
    exact wmSendLoop_stalls_full exSrc (3 - 1) 0 0

/-- Claim C7: `WriteMessage` on a 3-byte range with segment `Complete`
issues exactly one frame-start command 0x14, writes bytes 0 and 1 to the
transmit FIFO on the normal path, writes byte 2 on the end-of-frame path
(command 0x0C then the byte), then command 0x03 and the zero checksum
placeholder, and leaves the staging buffer fully zeroed. -/
theorem writeMessage_complete_three (src : Int → Nat) (dev : Nat → Nat)
    (buf : Nat → Nat) :
    (writeMessage src 3 5 dev buf).writes
      = [(Port.command, 0x14), (Port.fifo, src 0), (Port.fifo, src 1),
         (Port.command, 0x0C), (Port.fifo, src 2), (Port.command, 0x03),
         (Port.fifo, 0)]
    ∧ (writeMessage src 3 5 dev buf).writes.countP
        (fun w => decide (w.1 = Port.command) && decide (w.2 = 0x14)) = 1
    ∧ (writeMessage src 3 5 dev buf).cleared = true
    ∧ (∀ i, i < 1024 → (writeMessage src 3 5 dev buf).buf i = 0) := by
  have hw : (writeMessage src 3 5 dev buf).writes
      = [(Port.command, 0x14), (Port.fifo, src 0), (Port.fifo, src 1),
         (Port.command, 0x0C), (Port.fifo, src 2), (Port.command, 0x03),
         (Port.fifo, 0)] := by
    rw [writeMessage_writes_eq]
    rfl
  refine ⟨hw, ?_, ?_, fun i hi => ?_⟩
  · rw [hw]
    rfl
  · rw [writeMessage_cleared_eq]
    rfl
  · rw [writeMessage_buf_eq, if_pos (show (5 : Nat) &&& 4 ≠ 0 by decide)]
    exact clearLoop_fst MessageBufferSize buf i hi

/-- Witness for C7 at a concrete source, oracle, buffer and index. -/
theorem writeMessage_complete_three_witness :
    (writeMessage exSrc 3 5 devReady exBuf0).buf 0 = 0
    ∧ (writeMessage exSrc 3 5 devReady exBuf0).cleared = true :=
  ⟨(writeMessage_complete_three exSrc devReady exBuf0).2.2.2 0 (by omega),
   (writeMessage_complete_three exSrc devReady exBuf0).2.2.1⟩

/-- Claim C10: whenever the segment includes `End`, `WriteMessage` requires
`length ≥ 1`: with `length ≥ 1` every read of the caller-supplied source
range is within bounds `[0, length - 1]`, while with `length = 0` and a
segment including `End` the end-of-frame path unconditionally reads the
source at index `length - 1 = -1`, out of bounds. -/
theorem writeMessage_source_read_bounds (src : Int → Nat) (length seg : Nat)
    (dev : Nat → Nat) (buf : Nat → Nat) :
    (1 ≤ length →
      ∀ r ∈ (writeMessage src length seg dev buf).reads,
        0 ≤ r ∧ r < (length : Int))
    ∧ (seg &&& 4 ≠ 0 → length = 0 →
        (-1 : Int) ∈ (writeMessage src length seg dev buf).reads) := by
  rw [writeMessage_reads_eq]
  constructor
  · intro hlen r hr
    rcases List.mem_append.1 hr with h | h
    · rcases List.mem_map.1 h with ⟨j, hj, rfl⟩
      have hj2 := List.mem_range'_1.1 hj
      have hjlt : j < length := by
        by_cases h4 : seg &&& 4 ≠ 0
        · rw [if_pos h4] at hj2; omega
        · rw [if_neg h4] at hj2; omega
      omega
    · by_cases h4 : seg &&& 4 ≠ 0
      · rw [if_pos h4] at h
        have hr1 : r = (length : Int) - 1 := List.mem_singleton.1 h
        subst hr1
        omega
      · rw [if_neg h4] at h
        cases h
  · intro h4 h0
    subst h0
    rw [if_pos h4, if_pos h4]
    simp

/-- Witness for C10: in a 3-byte `Complete` run the source read at index 0 is
in bounds, and a 0-byte `End` run reads source index -1. -/
theorem writeMessage_source_read_bounds_witness :
    ((0 : Int) ≤ 0 ∧ (0 : Int) < ((3 : Nat) : Int))
    ∧ (-1 : Int) ∈ (writeMessage exSrc 0 4 devReady exBuf0).reads := by
  refine ⟨(writeMessage_source_read_bounds exSrc 3 5 devReady exBuf0).1
      (by omega) 0 ?_,
    (writeMessage_source_read_bounds exSrc 0 4 devReady exBuf0).2
      (by decide) rfl⟩
  rw [writeMessage_reads_eq]
  decide

/-! ### Helper lemmas: the Receive Decoder -/

lemma rmLoop_succ (dev : Nat → Nat) (fuel k len : Nat) (buf : Nat → Nat)
    (app : List Nat) :
    rmLoop dev (fuel + 1) k len buf app
      = match rmStep dev k len buf app with
        | .cont k2 len2 buf2 app2 => rmLoop dev fuel k2 len2 buf2 app2
        | .done r => r := rfl

lemma rmDrain_succ (dev : Nat → Nat) (fuel k : Nat) :
    rmDrain dev (fuel + 1) k = (k + 1, 0) := by
  have hcond : ¬(dev k &&& (if (0xE0 : Nat) = 0x60 then 1 else 0) ≠ 0) := by
    simp
  unfold rmDrain
  rw [if_neg hcond]

lemma rmStep_silence (dev : Nat → Nat) (k len : Nat) (buf : Nat → Nat)
    (app : List Nat) (hlen : len ≠ 25) (hs : (dev k &&& 0xE0) >>> 5 = 0) :
    rmStep dev k len buf app = .cont (k + 1) len buf app := by
  simp [rmStep, hlen, hs]

lemma rmStep_data (dev : Nat → Nat) (k len : Nat) (buf : Nat → Nat)
    (app : List Nat) (hlen : len ≠ 25)
    (hs : (dev k &&& 0xE0) >>> 5 = 1 ∨ (dev k &&& 0xE0) >>> 5 = 2
        ∨ (dev k &&& 0xE0) >>> 5 = 4) :
    rmStep dev k len buf app
      = .cont (k + 2) (len + 1)
          (Function.update buf len (dev (k + 1) % 256))
          (app ++ [dev (k + 1) % 256]) := by
  rcases hs with h | h | h <;> simp [rmStep, hlen, h]

lemma rmStep_completion (dev : Nat → Nat) (k len : Nat) (buf : Nat → Nat)
    (app : List Nat) (hlen : len ≠ 25)
    (hs : (dev k &&& 0xE0) >>> 5 = 5 ∨ (dev k &&& 0xE0) >>> 5 = 6
        ∨ (dev k &&& 0xE0) >>> 5 = 7) :
    rmStep dev k len buf app
      = if len = 0 then .cont (k + 2) len buf app
        else if dev (k + 1) &&& 0x30 = 0x30 then .done ⟨2, 0, buf, len, app, 0⟩
        else .done ⟨1, len, buf, len, app, 0⟩ := by
  rcases hs with h | h | h <;> simp [rmStep, hlen, h]

lemma rmStep_overflow (dev : Nat → Nat) (k len : Nat) (buf : Nat → Nat)
    (app : List Nat) (hlen : len ≠ 25) (hs : (dev k &&& 0xE0) >>> 5 = 3) :
    rmStep dev k len buf app
      = .done ⟨0x0B, 0, buf, len, app, (rmDrain dev 30000 (k + 1)).2⟩ := by
  simp [rmStep, hlen, hs]

lemma rmLoop_silent (dev : Nat → Nat) (hdev : ∀ j, 2 ≤ j → dev j = 0) :
    ∀ fuel k len buf app, 2 ≤ k → len ≠ 25 →
      rmLoop dev fuel k len buf app
        = ⟨0x0A, len, buf, len, app, 0⟩ := by
  intro fuel
  induction fuel with
  | zero => intro k len buf app _ _; rfl
  | succ fuel ih =>
    intro k len buf app hk hlen
    rw [rmLoop_succ, rmStep_silence dev k len buf app hlen
      (by rw [hdev k hk]; decide)]
    exact ih (k + 1) len buf app (by omega) hlen

lemma readMessage_oneByte_eq :
    readMessage devOneByteThenSilence exBuf0
      = ⟨0x0A, 1, Function.update exBuf0 0 0xAB, 1, [0xAB], 0⟩ := by
  show rmLoop devOneByteThenSilence (30 * 1000) 0 0 exBuf0 [] = _
  rw [show (30 * 1000 : Nat) = 29999 + 1 from by norm_num, rmLoop_succ,
    rmStep_data devOneByteThenSilence 0 0 exBuf0 [] (by omega)
      (Or.inl (by decide))]
  exact rmLoop_silent devOneByteThenSilence
    (fun j hj => by
      show (if j = 0 then 0x20 else if j = 1 then 0xAB else 0) = 0
      rw [if_neg (by omega), if_neg (by omega)])
    29999 2 1 _ _ (by omega) (by omega)

lemma rmStep_inv (dev : Nat → Nat) (k len : Nat) (buf : Nat → Nat)
    (app : List Nat) (h1 : len = app.length)
    (h2 : ∀ i, i < app.length → buf i = app.getD i 0) :
    (match rmStep dev k len buf app with
     | .cont _ len2 buf2 app2 =>
        len2 = app2.length ∧ ∀ i, i < app2.length → buf2 i = app2.getD i 0
     | .done r =>
        r.readState ≠ 0x0A ∧ r.len = r.appended.length
        ∧ ∀ i, i < r.appended.length → r.buf i = r.appended.getD i 0) := by
  unfold rmStep
  by_cases h25 : len = 25
  · rw [if_pos h25]
    exact ⟨(by decide : (0xEE : Nat) ≠ 0x0A), h1, h2⟩
  · rw [if_neg h25]
    by_cases hs0 : (dev k &&& 0xE0) >>> 5 = 0
    · rw [if_pos hs0]
      exact ⟨h1, h2⟩
    · rw [if_neg hs0]
      by_cases hsd : (dev k &&& 0xE0) >>> 5 = 1 ∨ (dev k &&& 0xE0) >>> 5 = 2
          ∨ (dev k &&& 0xE0) >>> 5 = 4
      · rw [if_pos hsd]
        refine ⟨by simp [h1], fun i hi => ?_⟩
        rw [List.length_append, List.length_cons, List.length_nil] at hi
        by_cases hil : i < app.length
        · rw [Function.update_noteq (by omega) _ buf,
            List.getD_append app [dev (k + 1) % 256] 0 i hil]
          exact h2 i hil
        · have hieq : i = app.length := by omega
          rw [hieq, h1.symm, Function.update_same,
            h1, List.getD_append_right app [dev (k + 1) % 256] 0 app.length
              (Nat.le_refl _), Nat.sub_self]
          rfl
      · rw [if_neg hsd]
        by_cases hsc : (dev k &&& 0xE0) >>> 5 = 5 ∨ (dev k &&& 0xE0) >>> 5 = 6
            ∨ (dev k &&& 0xE0) >>> 5 = 7
        · rw [if_pos hsc]
          by_cases hl0 : len = 0
          · rw [if_pos hl0]
            exact ⟨h1, h2⟩
          · rw [if_neg hl0]
            by_cases h30 : dev (k + 1) &&& 0x30 = 0x30
            · rw [if_pos h30]
              exact ⟨(by decide : (2 : Nat) ≠ 0x0A), h1, h2⟩
            · rw [if_neg h30]
              exact ⟨(by decide : (1 : Nat) ≠ 0x0A), h1, h2⟩
        · rw [if_neg hsc]
          by_cases hs3 : (dev k &&& 0xE0) >>> 5 = 3
          · rw [if_pos hs3]
            exact ⟨(by decide : (0x0B : Nat) ≠ 0x0A), h1, h2⟩
          · rw [if_neg hs3]
            exact ⟨h1, h2⟩

lemma rmLoop_inv (dev : Nat → Nat) :
    ∀ fuel k len buf app,
      len = app.length →
      (∀ i, i < app.length → buf i = app.getD i 0) →
      (rmLoop dev fuel k len buf app).readState = 0x0A →
        (rmLoop dev fuel k len buf app).ret
            = (rmLoop dev fuel k len buf app).appended.length
        ∧ ∀ i, i < (rmLoop dev fuel k len buf app).appended.length →
            (rmLoop dev fuel k len buf app).buf i
              = (rmLoop dev fuel k len buf app).appended.getD i 0 := by
  intro fuel
  induction fuel with
  | zero =>
    intro k len buf app h1 h2 _
    exact ⟨h1, h2⟩
  | succ fuel ih =>
    intro k len buf app h1 h2
    have hstep := rmStep_inv dev k len buf app h1 h2
    rw [rmLoop_succ]
    rcases hrs : rmStep dev k len buf app with ⟨k2, len2, buf2, app2⟩ | r
    · rw [hrs] at hstep
      exact ih k2 len2 buf2 app2 hstep.1 hstep.2
    · rw [hrs] at hstep
      intro hr
      exact absurd hr hstep.1

/-! ### Claims about ReadMessage -/

/-- Claim C2: when a poll of `ReadMessage` reads a completion code
(receive-status 5, 6 or 7), the call terminates only if at least one data
byte is already buffered: with accumulated length 0 it continues polling,
and with length ≥ 1 it returns readState 2 with length 0 when
`(completionCode & 0x30) == 0x30` and readState 1 with the accumulated
length otherwise. -/
theorem readMessage_completion_rule (dev : Nat → Nat) (fuel k len : Nat)
    (buf : Nat → Nat) (app : List Nat) (hlen25 : len ≠ 25)
    (hs : (dev k &&& 0xE0) >>> 5 = 5 ∨ (dev k &&& 0xE0) >>> 5 = 6
        ∨ (dev k &&& 0xE0) >>> 5 = 7) :
    (len = 0 →
      rmLoop dev (fuel + 1) k len buf app
        = rmLoop dev fuel (k + 2) len buf app)
    ∧ (1 ≤ len →
      rmLoop dev (fuel + 1) k len buf app
        = if dev (k + 1) &&& 0x30 = 0x30
          then ⟨2, 0, buf, len, app, 0⟩
          else ⟨1, len, buf, len, app, 0⟩) := by
  constructor
  · intro h0
    rw [rmLoop_succ, rmStep_completion dev k len buf app hlen25 hs, if_pos h0]
  · intro h1
    rw [rmLoop_succ, rmStep_completion dev k len buf app hlen25 hs,
      if_neg (by omega)]
    by_cases h30 : dev (k + 1) &&& 0x30 = 0x30
    · rw [if_pos h30, if_pos h30]
    · rw [if_neg h30, if_neg h30]

/-- Witness for C2: a bare completion code (status 7, code 0x30) with
length 0 continues polling, and the same completion code with one byte
buffered returns the suppressed outcome (readState 2, length 0). -/
theorem readMessage_completion_rule_witness :
    (rmLoop devBareCompletion 6 0 0 exBuf0 []
        = rmLoop devBareCompletion 5 2 0 exBuf0 [])
    ∧ rmLoop devBareCompletion 6 0 1 exBuf0 [0xAB]
        = ⟨2, 0, exBuf0, 1, [0xAB], 0⟩ := by
  have hs : (devBareCompletion 0 &&& 0xE0) >>> 5 = 5
      ∨ (devBareCompletion 0 &&& 0xE0) >>> 5 = 6
      ∨ (devBareCompletion 0 &&& 0xE0) >>> 5 = 7 := by
    right; right; decide
  refine ⟨(readMessage_completion_rule devBareCompletion 5 0 0 exBuf0 []
      (by omega) hs).1 rfl, ?_⟩
  rw [(readMessage_completion_rule devBareCompletion 5 0 1 exBuf0 [0xAB]
      (by omega) hs).2 (by omega)]
  rw [if_pos (by decide)]

/-- Claim C3 (code bug): on a receive overflow (status 3) `ReadMessage`
reports the Overflow outcome (readState 0x0B), leaves the buffered length
unchanged and returns length 0 — but it drains nothing: the C condition
`*DLC_Status & 0xE0 == 0x60` parses as `*DLC_Status & (0xE0 == 0x60)`,
which is always 0, so the drain loop reads no byte from the receive FIFO
even though the status still satisfies the overflow condition. -/
theorem readMessage_overflow_no_drain :
    (readMessage devOverflowRun exBuf0).readState = 0x0B
    ∧ (readMessage devOverflowRun exBuf0).ret = 0
    ∧ (readMessage devOverflowRun exBuf0).len = 0
    ∧ (readMessage devOverflowRun exBuf0).drained = 0
    ∧ devOverflowRun 1 &&& 0xE0 = 0x60 := by
  have hrun : readMessage devOverflowRun exBuf0
      = ⟨0x0B, 0, exBuf0, 0, [], (rmDrain devOverflowRun 30000 1).2⟩ := by
    show rmLoop devOverflowRun (30 * 1000) 0 0 exBuf0 [] = _
    rw [show (30 * 1000 : Nat) = 29999 + 1 from by norm_num, rmLoop_succ,
      rmStep_overflow devOverflowRun 0 0 exBuf0 [] (by omega) (by decide)]
  have hdrain : (rmDrain devOverflowRun 30000 1).2 = 0 := by
    rw [show (30000 : Nat) = 29999 + 1 from by norm_num, rmDrain_succ]
  rw [hrun]
  exact ⟨rfl, rfl, rfl, hdrain, by decide⟩

/-- Claim C8: when `ReadMessage` exhausts its 30000-iteration poll budget it
returns the Timeout outcome (readState 0x0A) together with the accumulated
length, and every data byte already appended to the staging buffer is
preserved at its position. -/
theorem readMessage_timeout_preserves (dev : Nat → Nat) (buf : Nat → Nat)
    (h : (readMessage dev buf).readState = 0x0A) :
    (readMessage dev buf).ret = (readMessage dev buf).appended.length
    ∧ ∀ i, i < (readMessage dev buf).appended.length →
        (readMessage dev buf).buf i
          = (readMessage dev buf).appended.getD i 0 :=
  rmLoop_inv dev (30 * 1000) 0 0 buf [] rfl
    (fun i hi => absurd hi (Nat.not_lt_zero i)) h

/-- Witness for C8: one data byte then silence runs the poll budget out and
returns Timeout with length 1, the byte preserved at index 0. -/
theorem readMessage_timeout_preserves_witness :
    (readMessage devOneByteThenSilence exBuf0).readState = 0x0A
    ∧ (readMessage devOneByteThenSilence exBuf0).ret
        = (readMessage devOneByteThenSilence exBuf0).appended.length
    ∧ (readMessage devOneByteThenSilence exBuf0).buf 0
        = (readMessage devOneByteThenSilence exBuf0).appended.getD 0 0 := by
  have h : (readMessage devOneByteThenSilence exBuf0).readState = 0x0A := by
    rw [readMessage_oneByte_eq]
  have hlen : 0 < (readMessage devOneByteThenSilence exBuf0).appended.length := by
    rw [readMessage_oneByte_eq]
    decide
  exact ⟨h, (readMessage_timeout_preserves devOneByteThenSilence exBuf0 h).1,
    (readMessage_timeout_preserves devOneByteThenSilence exBuf0 h).2 0 hlen⟩
